import Mathlib

/-!
Verification of the FT232RL panda adapter protocol code
(porting/FT232RL/PC/ft232rl_python_wrapper.py).

The Python source is shallowly embedded: bytes are natural numbers
(a real wire byte is < 256; struct.pack with format B raises on larger
values, which we totalise as reduction modulo 256, and the theorems
carry byte-range hypotheses where the distinction matters), byte
strings are lists of naturals, and the stateful adapter is explicit
state passing over an AdapterState record, with the serial line
modelled as explicit inputs (bytes accepted by a write, bytes made
available to a read).
-/

namespace Panda

/-- XOR fold with initial value 0, the checksum used throughout the
source (frame checksum in FT232RL_Frame and per-message checksum in
can_send_many). -/
def chkFold (l : List Nat) : Nat := l.foldl (· ^^^ ·) 0

/-- Frame of the FT232RL wire protocol (class FT232RL_Frame).  The
constructor of the Python class always sets length to the payload size
and derives the checksum, so both are represented as derived
functions, not fields. -/
structure Frame where
  frame_type : Nat
  sequence : Nat
  payload : List Nat
  flags : Nat
deriving DecidableEq

/-- Frame type constants of FT232RL_Frame. -/
def FRAME_CONTROL : Nat := 0x00

def FRAME_BULK_IN : Nat := 0x01

def FRAME_SERIAL : Nat := 0x02

def FRAME_BULK_OUT : Nat := 0x03

def FRAME_STATUS : Nat := 0x04

def FRAME_ERROR : Nat := 0x05

def FRAME_CHUNK : Nat := 0x06

def FRAME_ACK : Nat := 0x07

/-- Length field of a frame, always the payload size in the source. -/
def Frame.length (f : Frame) : Nat := f.payload.length

/-- First five header bytes, as packed by struct.pack in
_calculate_checksum: sync, type, sequence, length, flags. -/
def Frame.header5 (f : Frame) : List Nat :=
  [0xAA, f.frame_type % 256, f.sequence % 256, f.payload.length % 256, f.flags % 256]

/-- Checksum of a frame: XOR fold over the five header bytes and the
payload (method _calculate_checksum). -/
def Frame.checksum (f : Frame) : Nat := chkFold (f.header5 ++ f.payload)

/-- Method FT232RL_Frame.pack: six header bytes (sync, type, sequence,
length, flags, checksum) followed by the payload; the checksum is
recomputed at pack time. -/
def Frame.pack (f : Frame) : List Nat :=
  f.header5 ++ [f.checksum % 256] ++ f.payload

/-- Classmethod FT232RL_Frame.unpack: fails (None) when fewer than six
bytes are given, when the sync byte differs from 0xAA, when the
declared length exceeds the available bytes, or when the XOR checksum
recomputed over the first five bytes and the payload slice differs
from the stored checksum byte; otherwise rebuilds the frame. -/
def Frame.unpack (data : List Nat) : Option Frame :=
  match data with
  | sync :: ft :: sq :: ln :: fl :: ck :: rest =>
    if sync ≠ 0xAA then none
    else if rest.length < ln then none
    else
      let payload := rest.take ln
      let cksum := chkFold (sync :: ft :: sq :: ln :: fl :: payload)
      if cksum ≠ ck then none
      else some ⟨ft, sq, payload, fl⟩
  | _ => none

/-- Single bit flip at byte i, bit b of a byte sequence. -/
def flipBit (l : List Nat) (i b : Nat) : List Nat :=
  l.set i (l.getD i 0 ^^^ (1 <<< b))

/-- CAN message as in class CANMessage; the construction time
timestamp is wall clock time and is not modelled (every claim about
messages excludes timestamps). -/
structure CANMessage where
  addr : Nat
  data : List Nat
  bus : Nat
  extended : Bool
  fd : Bool
deriving DecidableEq

/-- Little endian two byte encoding, struct.pack format H, totalised
by reduction modulo 2 to the 16. -/
def le16 (v : Nat) : List Nat := [v % 256, v / 256 % 256]

/-- Little endian four byte encoding, struct.pack format I, totalised
by reduction modulo 2 to the 32. -/
def le32 (v : Nat) : List Nat :=
  [v % 256, v / 256 % 256, v / 65536 % 256, v / 16777216 % 256]

/-- DLC of a message in can_send_many: the data length, replaced by
the sentinel 15 when the data is longer than 8 bytes. -/
def encDlc (m : CANMessage) : Nat :=
  if m.data.length > 8 then 15 else m.data.length

/-- Encoding of one CAN message inside the loop body of
can_send_many: header byte (dlc shifted left 4, bus shifted left 1,
fd flag), four little endian address bytes with bit 30 set when
extended, up to dlc data bytes, and a trailing XOR checksum byte. -/
def encMsg (m : CANMessage) : List Nat :=
  let dlc := encDlc m
  let header0 := (dlc <<< 4) ||| (m.bus <<< 1) ||| (if m.fd then 1 else 0)
  let addr_word := m.addr ||| (if m.extended then 1 <<< 30 else 0)
  let msg_data := header0 % 256 :: le32 addr_word ++ m.data.take dlc
  msg_data ++ [chkFold msg_data % 256]

/-- Packing loop of can_send_many: accumulates encoded messages and a
count, stopping before a message once the accumulated length plus the
fixed 20 byte budget would exceed 250. -/
def canPackGo : List Nat → Nat → List CANMessage → List Nat × Nat
  | packed, count, [] => (packed, count)
  | packed, count, m :: rest =>
    if packed.length + 20 > 250 then (packed, count)
    else canPackGo (packed ++ encMsg m) (count + 1) rest

/-- Bulk payload and included count built by can_send_many before the
frame is sent. -/
def canPackMany (msgs : List CANMessage) : List Nat × Nat :=
  canPackGo [] 0 msgs

/-- DLC to data length table of can_recv. -/
def dlcToLen : List Nat := [0, 1, 2, 3, 4, 5, 6, 7, 8, 12, 16, 20, 24, 32, 48, 64]

/-- Raw little endian address word reassembled from the four address
bytes read by can_recv (struct.unpack format I). -/
def rawAddr (a0 a1 a2 a3 : Nat) : Nat :=
  a0 + 256 * a1 + 65536 * a2 + 16777216 * a3

/-- DLC nibble of the per message header byte, as read by can_recv. -/
def msgDlc (h : Nat) : Nat := (h >>> 4) &&& 0xF

/-- Data length of one parsed message: the DLC table entry, with the
dead fallback 8 of the source for an out of range index. -/
def msgDataLen (h : Nat) : Nat :=
  if msgDlc h < dlcToLen.length then dlcToLen.getD (msgDlc h) 0 else 8

/-- Message constructed by one iteration of the parsing loop of
can_recv: bus and fd from the header byte, extended from bit 30 of the
raw address word, the address masked (extended) or shifted right by 18
and masked (standard), and the data slice starting at offset 6. -/
def parsedMsg (h a0 a1 a2 a3 : Nat) (rest : List Nat) : CANMessage :=
  let addr_raw := rawAddr a0 a1 a2 a3
  let extended := (addr_raw &&& (1 <<< 30)) != 0
  ⟨if extended then addr_raw &&& 0x1FFFFFFF else (addr_raw >>> 18) &&& 0x7FF,
   rest.take (msgDataLen h), (h >>> 1) &&& 0x7, extended, (h &&& 0x1) != 0⟩

/-- Parsing loop of can_recv over a bulk payload, with an explicit
fuel argument bounding the number of iterations so that the function
is structurally recursive and computable by reduction.  The loop runs
while at least 6 bytes remain; the byte after the four address bytes
is skipped (the source reads message data starting at offset 6); the
inner offset check of the source can never fire once the loop guard
held and is kept as the first branch.  Each iteration consumes at
least 6 bytes, so any fuel at least the buffer length is enough (see
parseBulkGo_fuel_irrelevant). -/
def parseBulkGo : Nat → List Nat → List CANMessage
  | fuel + 1, h :: a0 :: a1 :: a2 :: a3 :: _x5 :: rest =>
    if rest.length + 6 ≤ 5 then []
    else if msgDataLen h > rest.length then []
    else parsedMsg h a0 a1 a2 a3 rest :: parseBulkGo fuel (rest.drop (msgDataLen h))
  | _, _ => []

/-- Parsing loop of can_recv: the fuel equal to the buffer length can
never run out. -/
def parseBulk (data : List Nat) : List CANMessage := parseBulkGo data.length data

/-- Five message batch of claim C2. -/
def c2Batch : List CANMessage :=
  [⟨0x123, [1, 2, 3, 4], 0, false, false⟩,
   ⟨0x456, [1, 2, 3, 4], 1, false, false⟩,
   ⟨0x789, [1, 2, 3, 4], 2, false, false⟩,
   ⟨0x7FF, [1, 2, 3, 4, 5, 6], 0, false, false⟩,
   ⟨0x1FFFFFFF, [1, 2, 3, 4], 1, true, false⟩]

/-- Twelve message batch showing the 250 byte cap can be exceeded:
ten 16 byte FD messages encode to 21 bytes each (210 bytes), one
14 byte message encodes to 20 bytes (230), and the final 16 byte
message passes the budget check (230 + 20 is not above 250) yet
appends 21 more bytes, for a 251 byte payload. -/
def c5Batch : List CANMessage :=
  (List.replicate 10 (⟨0, List.replicate 16 0, 0, false, false⟩ : CANMessage)) ++
  [⟨0, List.replicate 14 0, 0, false, false⟩,
   ⟨0, List.replicate 16 0, 0, false, false⟩]

/-- Statistics counters of FT232RL_PandaAdapter. -/
structure Stats where
  frames_sent : Nat
  frames_received : Nat
  bytes_sent : Nat
  bytes_received : Nat
  errors : Nat
deriving DecidableEq

/-- Adapter state: the connected flag, the outgoing sequence counter
and the statistics counters.  The serial handle of the source is
conflated with the connected flag (the source checks both together),
and the chunking fields are never touched by the modelled operations. -/
structure AdapterState where
  connected : Bool
  sequence_tx : Nat
  stats : Stats
deriving DecidableEq

/-- Componentwise order on the statistics counters. -/
def Stats.Le (a b : Stats) : Prop :=
  a.frames_sent ≤ b.frames_sent ∧ a.frames_received ≤ b.frames_received ∧
  a.bytes_sent ≤ b.bytes_sent ∧ a.bytes_received ≤ b.bytes_received ∧
  a.errors ≤ b.errors

/-- Outcome of one serial write: the number of bytes the driver
accepted, or an exception raised by the write call. -/
inductive WriteOutcome where
  | accepted (n : Nat)
  | raised
deriving DecidableEq

/-- Method _send_frame: returns False untouched when not connected;
otherwise assigns the outgoing sequence number to the frame, packs it,
writes, and on a write that returns n bytes increments the sequence
counter modulo 256, frames_sent by one and bytes_sent by n, returning
whether the whole packed frame was accepted; a raising write
increments only the error counter and returns False.  No retry. -/
def sendFrame (st : AdapterState) (f : Frame) (w : WriteOutcome) :
    AdapterState × Bool :=
  if st.connected then
    match w with
    | .accepted n =>
      let packed := Frame.pack { f with sequence := st.sequence_tx }
      ({ st with sequence_tx := (st.sequence_tx + 1) % 256,
                 stats := { st.stats with
                            frames_sent := st.stats.frames_sent + 1,
                            bytes_sent := st.stats.bytes_sent + n } },
       n == packed.length)
    | .raised =>
      ({ st with stats := { st.stats with errors := st.stats.errors + 1 } }, false)
  else (st, false)

/-- Method _receive_frame over the bytes the serial line yields within
the timeout: returns none untouched when not connected, when fewer
than 6 header bytes arrive, when the sync byte is wrong, or when the
payload read is short (none of these count an error); on a full read
it validates through FT232RL_Frame.unpack, counting the frame and its
bytes on success and one error on checksum failure. -/
def receiveFrame (st : AdapterState) (avail : List Nat) :
    AdapterState × Option Frame :=
  if st.connected then
    let header := avail.take 6
    if header.length < 6 then (st, none)
    else if header.getD 0 0 ≠ 0xAA then (st, none)
    else
      let ln := header.getD 3 0
      let payload := (avail.drop 6).take ln
      if payload.length < ln then (st, none)
      else
        let frame_data := header ++ payload
        match Frame.unpack frame_data with
        | some f =>
          ({ st with stats := { st.stats with
              frames_received := st.stats.frames_received + 1,
              bytes_received := st.stats.bytes_received + frame_data.length } },
           some f)
        | none =>
          ({ st with stats := { st.stats with errors := st.stats.errors + 1 } }, none)
  else (st, none)

/-- Control request payload of _control_transfer: requestType,
request, value and index little endian, then the data length (zero
when no data) and the data. -/
def controlPayload (rt req value index : Nat) (data : List Nat) : List Nat :=
  (rt % 256 :: req % 256 :: (le16 value ++ le16 index)) ++
    (if data.isEmpty then le16 0 else le16 data.length ++ data)

/-- Method _control_transfer: sends a CONTROL frame with the packed
request and waits up to 5 seconds for the next frame; returns the
response payload when a CONTROL frame arrives and the empty byte
string when the send fails, the receive times out, or the response has
a different type. -/
def controlTransfer (st : AdapterState) (rt req value index : Nat) (data : List Nat)
    (w : WriteOutcome) (avail : List Nat) : AdapterState × List Nat :=
  let frame : Frame := ⟨FRAME_CONTROL, 0, controlPayload rt req value index data, 0⟩
  let r1 := sendFrame st frame w
  if r1.2 then
    let r2 := receiveFrame r1.1 avail
    match r2.2 with
    | some rf => if rf.frame_type ≠ FRAME_CONTROL then (r2.1, []) else (r2.1, rf.payload)
    | none => (r2.1, [])
  else (r1.1, [])

/-- Method reset: a control transfer with request 0xC0; the result is
the test len(response) greater or equal 0 of the source, which holds
for every byte string. -/
def reset (st : AdapterState) (w : WriteOutcome) (avail : List Nat) :
    AdapterState × Bool :=
  let r := controlTransfer st 0x40 0xC0 0 0 [] w avail
  (r.1, decide (r.2.length ≥ 0))

/-- Method set_safety_mode: control transfer with request 0xDC. -/
def setSafetyMode (st : AdapterState) (mode param : Nat) (w : WriteOutcome)
    (avail : List Nat) : AdapterState × Bool :=
  let r := controlTransfer st 0x40 0xDC mode param [] w avail
  (r.1, decide (r.2.length ≥ 0))

/-- Method set_can_speed_kbps: control transfer with request 0xDD. -/
def setCanSpeedKbps (st : AdapterState) (bus speed : Nat) (w : WriteOutcome)
    (avail : List Nat) : AdapterState × Bool :=
  let r := controlTransfer st 0x40 0xDD bus speed [] w avail
  (r.1, decide (r.2.length ≥ 0))

/-- Method send_heartbeat: control transfer with request 0xF1. -/
def sendHeartbeat (st : AdapterState) (w : WriteOutcome) (avail : List Nat) :
    AdapterState × Bool :=
  let r := controlTransfer st 0x40 0xF1 0 0 [] w avail
  (r.1, decide (r.2.length ≥ 0))

/-- Method can_send_many: packs the batch; returns 0 without touching
the transport when the packed payload is empty; otherwise sends one
BULK_OUT frame and returns the included count on success, 0 on a
failed send. -/
def canSendMany (st : AdapterState) (msgs : List CANMessage) (w : WriteOutcome) :
    AdapterState × Nat :=
  let packed := canPackMany msgs
  if packed.1.isEmpty then (st, 0)
  else
    let r := sendFrame st ⟨FRAME_BULK_OUT, 0, packed.1, 0⟩ w
    if r.2 then (r.1, packed.2) else (r.1, 0)

/-- Method can_recv: sends an empty BULK_IN request frame, waits up to
2 seconds for a BULK_IN response and parses its payload; any failure
yields the empty list. -/
def canRecv (st : AdapterState) (w : WriteOutcome) (avail : List Nat) :
    AdapterState × List CANMessage :=
  let r1 := sendFrame st ⟨FRAME_BULK_IN, 0, [], 0⟩ w
  if r1.2 then
    let r2 := receiveFrame r1.1 avail
    match r2.2 with
    | some rf =>
      if rf.frame_type ≠ FRAME_BULK_IN then (r2.1, []) else (r2.1, parseBulk rf.payload)
    | none => (r2.1, [])
  else (r1.1, [])

/-- Method connect: when opening the serial port raises, returns False
with the state untouched; otherwise marks the adapter connected,
issues the initial reset (whose result is not gated) and returns
True. -/
def connect (st : AdapterState) (openOk : Bool) (w : WriteOutcome)
    (avail : List Nat) : AdapterState × Bool :=
  if openOk then
    let st1 := { st with connected := true }
    let r := reset st1 w avail
    (r.1, true)
  else (st, false)

/-- Methods close and disconnect: clears the connected flag, leaving
every counter in place. -/
def close (st : AdapterState) : AdapterState := { st with connected := false }

/-- Method get_stats: a pure snapshot of the counters and the
connected flag. -/
def getStats (st : AdapterState) : Stats × Bool := (st.stats, st.connected)

theorem foldl_xor_shift (l : List Nat) (a : Nat) :
    l.foldl (· ^^^ ·) a = a ^^^ l.foldl (· ^^^ ·) 0 := by
  induction l generalizing a with
  | nil => simp
  | cons x xs ih =>
    simp only [List.foldl_cons]
    rw [ih (a ^^^ x), ih (0 ^^^ x), Nat.zero_xor, Nat.xor_assoc]

theorem chkFold_cons (x : Nat) (l : List Nat) :
    chkFold (x :: l) = x ^^^ chkFold l := by
  simp only [chkFold, List.foldl_cons]
  rw [foldl_xor_shift, Nat.zero_xor]

theorem chkFold_nil : chkFold [] = 0 := rfl

theorem chkFold_append (a b : List Nat) :
    chkFold (a ++ b) = chkFold a ^^^ chkFold b := by
  induction a with
  | nil => simp [chkFold_nil]
  | cons x xs ih =>
    simp only [List.cons_append, chkFold_cons, ih, Nat.xor_assoc]

theorem chkFold_lt_256 (l : List Nat) (h : ∀ x ∈ l, x < 256) :
    chkFold l < 256 := by
  induction l with
  | nil => simp [chkFold_nil]
  | cons x xs ih =>
    rw [chkFold_cons]
    have hx : x < 2 ^ 8 := h x (by simp)
    have hxs : chkFold xs < 2 ^ 8 := ih (fun y hy => h y (by simp [hy]))
    exact Nat.xor_lt_two_pow hx hxs

theorem chkFold_set (l : List Nat) (i m : Nat) (h : i < l.length) :
    chkFold (l.set i (l.getD i 0 ^^^ m)) = chkFold l ^^^ m := by
  induction l generalizing i with
  | nil => simp at h
  | cons x xs ih =>
    cases i with
    | zero =>
      simp only [List.getD_cons_zero, List.set_cons_zero, chkFold_cons]
      rw [Nat.xor_assoc, Nat.xor_comm m (chkFold xs), ← Nat.xor_assoc]
    | succ j =>
      simp only [List.getD_cons_succ, List.set_cons_succ, chkFold_cons]
      rw [ih j (by simpa using h), ← Nat.xor_assoc]

theorem xor_ne_self (x m : Nat) (hm : m ≠ 0) : x ^^^ m ≠ x := by
  intro h
  apply hm
  have h2 : x ^^^ (x ^^^ m) = x ^^^ x := congrArg (x ^^^ ·) h
  rw [← Nat.xor_assoc] at h2
  simpa using h2

theorem two_pow_ne_zero (b : Nat) : (1 <<< b) ≠ 0 := by
  rw [Nat.one_shiftLeft]
  exact Nat.pos_iff_ne_zero.mp (Nat.two_pow_pos b)

theorem pack_as_cons (f : Frame) :
    f.pack = 0xAA :: f.frame_type % 256 :: f.sequence % 256 ::
      f.payload.length % 256 :: f.flags % 256 :: f.checksum % 256 :: f.payload := rfl

theorem checksum_lt_256 (f : Frame) (hp : ∀ x ∈ f.payload, x < 256) :
    f.checksum < 256 := by
  apply chkFold_lt_256
  intro x hx
  simp only [Frame.header5, List.mem_append, List.mem_cons, List.not_mem_nil,
    or_false] at hx
  rcases hx with (h | h | h | h | h) | h
  · omega
  · subst h; exact Nat.mod_lt _ (by omega)
  · subst h; exact Nat.mod_lt _ (by omega)
  · subst h; exact Nat.mod_lt _ (by omega)
  · subst h; exact Nat.mod_lt _ (by omega)
  · exact hp x h

/-- Claim C3: for every frame whose type is one of the eight frame
types, sequence and flags in 0 to 255, and payload of at most 249
bytes (each a byte value), unpacking the packed byte sequence succeeds
and returns the frame itself, hence reproduces type, sequence, length,
flags and payload; the checksum is the derived Frame.checksum, never
caller supplied. -/
theorem c3_frame_roundtrip (f : Frame)
    (hft : f.frame_type < 8) (hsq : f.sequence < 256) (hfl : f.flags < 256)
    (hlen : f.payload.length ≤ 249) (hp : ∀ x ∈ f.payload, x < 256) :
    Frame.unpack f.pack = some f ∧ (Frame.unpack f.pack).map Frame.length = some f.length := by
  have hft2 : f.frame_type % 256 = f.frame_type := Nat.mod_eq_of_lt (by omega)
  have hsq2 : f.sequence % 256 = f.sequence := Nat.mod_eq_of_lt hsq
  have hfl2 : f.flags % 256 = f.flags := Nat.mod_eq_of_lt hfl
  have hln2 : f.payload.length % 256 = f.payload.length := Nat.mod_eq_of_lt (by omega)
  have hck2 : f.checksum % 256 = f.checksum := Nat.mod_eq_of_lt (checksum_lt_256 f hp)
  have main : Frame.unpack f.pack = some f := by
    rw [pack_as_cons, hft2, hsq2, hfl2, hln2, hck2]
    simp only [Frame.unpack]
    rw [if_neg (by omega)]
    rw [if_neg (by omega)]
    simp only [List.take_length]
    rw [if_neg (by simp [Frame.checksum, Frame.header5, hft2, hsq2, hfl2, hln2])]
  exact ⟨main, by rw [main]; rfl⟩

/-- Witness for claim C3 at a concrete frame. -/
theorem c3_frame_roundtrip_witness :
    ((1 : Nat) < 8 ∧ (2 : Nat) < 256 ∧ (4 : Nat) < 256 ∧
      ([3, 250] : List Nat).length ≤ 249 ∧ ∀ x ∈ ([3, 250] : List Nat), x < 256) ∧
    Frame.unpack (Frame.pack ⟨1, 2, [3, 250], 4⟩) = some ⟨1, 2, [3, 250], 4⟩ := by
  refine ⟨by decide, ?_⟩
  exact (c3_frame_roundtrip ⟨1, 2, [3, 250], 4⟩ (by decide) (by decide) (by decide)
    (by decide) (by decide)).1

/-- Unfolding of Frame.unpack on an explicit six byte prefix. -/
theorem unpack_cons (sync ft sq ln fl ck : Nat) (rest : List Nat) :
    Frame.unpack (sync :: ft :: sq :: ln :: fl :: ck :: rest) =
      (if sync ≠ 0xAA then none
       else if rest.length < ln then none
       else if chkFold (sync :: ft :: sq :: ln :: fl :: rest.take ln) ≠ ck then none
       else some ⟨ft, sq, rest.take ln, fl⟩) := rfl

theorem unpack_header_flip (t s fl ck m : Nat) (P : List Nat) (hm : m ≠ 0)
    (hck : ck = chkFold (0xAA :: t :: s :: P.length :: fl :: P)) :
    Frame.unpack (0xAA :: (t ^^^ m) :: s :: P.length :: fl :: ck :: P) = none ∧
    Frame.unpack (0xAA :: t :: (s ^^^ m) :: P.length :: fl :: ck :: P) = none ∧
    Frame.unpack (0xAA :: t :: s :: P.length :: (fl ^^^ m) :: ck :: P) = none ∧
    Frame.unpack (0xAA :: t :: s :: P.length :: fl :: (ck ^^^ m) :: P) = none := by
  refine ⟨?_, ?_, ?_, ?_⟩
  · have h3 : chkFold (0xAA :: (t ^^^ m) :: s :: P.length :: fl :: P) =
        chkFold (0xAA :: t :: s :: P.length :: fl :: P) ^^^ m :=
      chkFold_set (0xAA :: t :: s :: P.length :: fl :: P) 1 m (by simp)
    rw [unpack_cons, if_neg (by simp), if_neg (Nat.lt_irrefl _), List.take_length]
    rw [if_pos (by rw [h3, ← hck]; exact xor_ne_self ck m hm)]
  · have h3 : chkFold (0xAA :: t :: (s ^^^ m) :: P.length :: fl :: P) =
        chkFold (0xAA :: t :: s :: P.length :: fl :: P) ^^^ m :=
      chkFold_set (0xAA :: t :: s :: P.length :: fl :: P) 2 m (by simp)
    rw [unpack_cons, if_neg (by simp), if_neg (Nat.lt_irrefl _), List.take_length]
    rw [if_pos (by rw [h3, ← hck]; exact xor_ne_self ck m hm)]
  · have h3 : chkFold (0xAA :: t :: s :: P.length :: (fl ^^^ m) :: P) =
        chkFold (0xAA :: t :: s :: P.length :: fl :: P) ^^^ m :=
      chkFold_set (0xAA :: t :: s :: P.length :: fl :: P) 4 m (by simp)
    rw [unpack_cons, if_neg (by simp), if_neg (Nat.lt_irrefl _), List.take_length]
    rw [if_pos (by rw [h3, ← hck]; exact xor_ne_self ck m hm)]
  · rw [unpack_cons, if_neg (by simp), if_neg (Nat.lt_irrefl _), List.take_length]
    rw [if_pos (by rw [← hck]; exact (xor_ne_self ck m hm).symm)]

theorem unpack_payload_flip (t s fl ck m j : Nat) (P : List Nat) (hm : m ≠ 0)
    (hj : j < P.length)
    (hck : ck = chkFold (0xAA :: t :: s :: P.length :: fl :: P)) :
    Frame.unpack (0xAA :: t :: s :: P.length :: fl :: ck ::
      P.set j (P.getD j 0 ^^^ m)) = none := by
  have h3 : chkFold (0xAA :: t :: s :: P.length :: fl :: P.set j (P.getD j 0 ^^^ m)) =
      chkFold (0xAA :: t :: s :: P.length :: fl :: P) ^^^ m :=
    chkFold_set (0xAA :: t :: s :: P.length :: fl :: P) (j + 5) m
      (by simp only [List.length_cons]; omega)
  have htake : (P.set j (P.getD j 0 ^^^ m)).take P.length = P.set j (P.getD j 0 ^^^ m) :=
    List.take_of_length_le (by rw [List.length_set])
  rw [unpack_cons, if_neg (by simp), List.length_set, if_neg (Nat.lt_irrefl _), htake]
  rw [if_pos (by rw [h3, ← hck]; exact xor_ne_self ck m hm)]

/-- Claim C6 amended: for every well formed encoded frame (byte valued
payload of at most 249 bytes), flipping any single bit of any byte
other than the length byte at offset 3 makes FT232RL_Frame.unpack fail
(return none); the source distinguishes no error kinds, every failure
is the same None.  A flip inside the length byte can instead yield a
successful decode of a shorter frame, which is why the original claim
had to be restricted (see the counterexample). -/
theorem c6_flip_fails (f : Frame)
    (hlen : f.payload.length ≤ 249) (hp : ∀ x ∈ f.payload, x < 256)
    (i b : Nat) (hi : i < f.pack.length) (h3 : i ≠ 3) (_hb : b < 8) :
    Frame.unpack (flipBit f.pack i b) = none := by
  have hm : (1 <<< b) ≠ 0 := two_pow_ne_zero b
  have hln2 : f.payload.length % 256 = f.payload.length := Nat.mod_eq_of_lt (by omega)
  have hck' : f.checksum % 256 =
      chkFold (0xAA :: f.frame_type % 256 :: f.sequence % 256 :: f.payload.length ::
        f.flags % 256 :: f.payload) := by
    rw [Nat.mod_eq_of_lt (checksum_lt_256 f hp)]
    show chkFold (f.header5 ++ f.payload) = _
    simp only [Frame.header5, List.cons_append, List.nil_append, hln2]
  have hpacklen : f.pack.length = 6 + f.payload.length := by
    rw [pack_as_cons]; simp only [List.length_cons]; omega
  rcases Nat.lt_or_ge i 6 with h6 | h6
  · interval_cases i
    · rw [pack_as_cons, hln2]
      show Frame.unpack ((0xAA ^^^ (1 <<< b)) :: f.frame_type % 256 :: f.sequence % 256 ::
        f.payload.length :: f.flags % 256 :: f.checksum % 256 :: f.payload) = none
      rw [unpack_cons, if_pos (xor_ne_self 0xAA (1 <<< b) hm)]
    · rw [pack_as_cons, hln2]
      exact (unpack_header_flip (f.frame_type % 256) (f.sequence % 256) (f.flags % 256)
        (f.checksum % 256) (1 <<< b) f.payload hm hck').1
    · rw [pack_as_cons, hln2]
      exact (unpack_header_flip (f.frame_type % 256) (f.sequence % 256) (f.flags % 256)
        (f.checksum % 256) (1 <<< b) f.payload hm hck').2.1
    · exact absurd rfl h3
    · rw [pack_as_cons, hln2]
      exact (unpack_header_flip (f.frame_type % 256) (f.sequence % 256) (f.flags % 256)
        (f.checksum % 256) (1 <<< b) f.payload hm hck').2.2.1
    · rw [pack_as_cons, hln2]
      exact (unpack_header_flip (f.frame_type % 256) (f.sequence % 256) (f.flags % 256)
        (f.checksum % 256) (1 <<< b) f.payload hm hck').2.2.2
  · obtain ⟨j, rfl⟩ : ∃ j, i = j + 6 := ⟨i - 6, by omega⟩
    have hj : j < f.payload.length := by rw [hpacklen] at hi; omega
    rw [pack_as_cons, hln2]
    exact unpack_payload_flip (f.frame_type % 256) (f.sequence % 256) (f.flags % 256)
      (f.checksum % 256) (1 <<< b) j f.payload hm hj hck'

/-- Witness for the amended claim C6 at a concrete frame, byte and bit. -/
theorem c6_flip_fails_witness :
    (((⟨1, 2, [3], 4⟩ : Frame).payload.length ≤ 249 ∧
        (∀ x ∈ (⟨1, 2, [3], 4⟩ : Frame).payload, x < 256) ∧
        (1 : Nat) < (Frame.pack ⟨1, 2, [3], 4⟩).length ∧ (1 : Nat) ≠ 3 ∧ (0 : Nat) < 8) ∧
      Frame.unpack (flipBit (Frame.pack ⟨1, 2, [3], 4⟩) 1 0) = none) := by
  refine ⟨by decide, ?_⟩
  exact c6_flip_fails ⟨1, 2, [3], 4⟩ (by decide) (by decide) 1 0 (by decide)
    (by decide) (by decide)

/-- Counterexample to claim C6 as stated: for the frame with type 0,
sequence 0, payload the single byte 0x01 and flags 0, flipping bit 0
of the length byte (offset 3) of the encoded bytes makes the declared
length 0, the dropped payload byte and the changed length byte cancel
in the XOR, and unpack succeeds, returning a different frame instead
of failing. -/
theorem c6_counterexample :
    Frame.unpack (flipBit (Frame.pack ⟨0, 0, [1], 0⟩) 3 0) =
      some ⟨0, 0, [], 0⟩ := by decide

/-- Any two fuels at least the buffer length give the same parse, so
parseBulk does not depend on the fuel encoding of the source loop. -/
theorem parseBulkGo_fuel_irrelevant :
    ∀ (f1 f2 : Nat) (data : List Nat), data.length ≤ f1 → data.length ≤ f2 →
      parseBulkGo f1 data = parseBulkGo f2 data := by
  intro f1
  induction f1 with
  | zero =>
    intro f2 data h1 h2
    have : data = [] := List.length_eq_zero.mp (Nat.le_zero.mp h1)
    subst this
    cases f2 <;> rfl
  | succ k ih =>
    intro f2 data h1 h2
    rcases data with _ | ⟨h, _ | ⟨a0, _ | ⟨a1, _ | ⟨a2, _ | ⟨a3, _ | ⟨x5, rest⟩⟩⟩⟩⟩⟩
    · cases f2 <;> rfl
    · cases f2 with
      | zero => simp at h2
      | succ k2 => rfl
    · cases f2 with
      | zero => simp at h2
      | succ k2 => rfl
    · cases f2 with
      | zero => simp at h2
      | succ k2 => rfl
    · cases f2 with
      | zero => simp at h2
      | succ k2 => rfl
    · cases f2 with
      | zero => simp at h2
      | succ k2 => rfl
    · cases f2 with
      | zero => simp at h2
      | succ k2 =>
        simp only [parseBulkGo]
        simp only [List.length_cons] at h1 h2
        have hrec := ih k2 (rest.drop (msgDataLen h))
          (by simp only [List.length_drop]; omega)
          (by simp only [List.length_drop]; omega)
        rw [hrec]

theorem parseBulkGo_nil (fuel : Nat) : parseBulkGo fuel [] = [] := by
  cases fuel <;> rfl

theorem le32_reassemble (w : Nat) (hw : w < 4294967296) :
    w % 256 + 256 * (w / 256 % 256) + 65536 * (w / 65536 % 256) +
      16777216 * (w / 16777216 % 256) = w := by omega

theorem lor_testBit30 (addr : Nat) : ((addr ||| 1 <<< 30) &&& (1 <<< 30)) ≠ 0 := by
  rw [Nat.one_shiftLeft, Nat.and_two_pow, Nat.testBit_lor, Nat.testBit_two_pow_self]
  simp

theorem lor_mask_extended (addr : Nat) (h : addr < 2 ^ 29) :
    (addr ||| 1 <<< 30) &&& 0x1FFFFFFF = addr := by
  have hmask : (0x1FFFFFFF : Nat) = 2 ^ 29 - 1 := by norm_num
  rw [Nat.one_shiftLeft, hmask]
  apply Nat.eq_of_testBit_eq
  intro i
  rw [Nat.testBit_land, Nat.testBit_lor, Nat.testBit_two_pow_sub_one, Nat.testBit_two_pow]
  rcases Nat.lt_or_ge i 29 with hi | hi
  · have h30 : ¬(30 = i) := by omega
    simp [hi, h30]
  · have ha : addr.testBit i = false :=
      Nat.testBit_lt_two_pow (lt_of_lt_of_le h (Nat.pow_le_pow_right (by omega) hi))
    have hi2 : ¬(i < 29) := by omega
    simp [ha, hi2]

theorem parseBulkGo_one_ext (fuel : Nat) (addr H CK bus : Nat) (fd : Bool)
    (haddr : addr ≤ 0x1FFFFFFF)
    (hdlc : (H >>> 4) &&& 0xF = 0)
    (hbus : (H >>> 1) &&& 0x7 = bus)
    (hfd : ((H &&& 0x1) != 0) = fd) :
    parseBulkGo (fuel + 1) [H, (addr ||| 1073741824) % 256,
      (addr ||| 1073741824) / 256 % 256, (addr ||| 1073741824) / 65536 % 256,
      (addr ||| 1073741824) / 16777216 % 256, CK] =
    [⟨addr, [], bus, true, fd⟩] := by
  have haddr2 : addr < 2 ^ 29 := by
    have h29 : (2 : Nat) ^ 29 = 536870912 := by norm_num
    omega
  have hlit : (1 <<< 30 : Nat) = 1073741824 := by
    rw [Nat.one_shiftLeft]
  have hw32 : (addr ||| 1073741824) < 4294967296 := by
    have h1 : addr < 2 ^ 32 := by
      have h32 : (2 : Nat) ^ 32 = 4294967296 := by norm_num
      omega
    have h2 : (1073741824 : Nat) < 2 ^ 32 := by norm_num
    have h3 := Nat.or_lt_two_pow h1 h2
    have h32 : (2 : Nat) ^ 32 = 4294967296 := by norm_num
    omega
  have hre := le32_reassemble (addr ||| 1073741824) hw32
  have hbitb : (((addr ||| 1073741824) &&& (1 <<< 30)) != 0) = true := by
    rw [hlit] at *
    simpa [bne_iff_ne, hlit] using lor_testBit30 addr
  have hmask2 : (addr ||| 1073741824) &&& 536870911 = addr := by
    have := lor_mask_extended addr haddr2
    rw [hlit] at this
    simpa using this
  have hdl0 : msgDataLen H = 0 := by
    simp [msgDataLen, msgDlc, hdlc, dlcToLen]
  simp only [parseBulkGo, List.length_nil]
  rw [if_neg (by omega), hdl0, if_neg (by omega)]
  simp only [List.drop_nil, parseBulkGo_nil, parsedMsg, rawAddr, List.take_nil, hdl0]
  rw [hre, hbitb]
  simp [hmask2, hbus, ← hfd]

/-- Counterexample to claim C1 as stated: for the standard (not
extended) message with addr 0x123, one data byte 0x11, bus 0, the
parse of its encoding yields one message with addr 0 (the decoder
shifts a standard raw address right by 18) and data 0x23 (the decoder
reads data one byte after where the encoder wrote it, so it returns
the per message checksum byte), differing from the original in both
addr and data; timestamps are not compared. -/
theorem c1_counterexample :
    parseBulk (canPackMany [⟨0x123, [0x11], 0, false, false⟩]).1 ≠
      [⟨0x123, [0x11], 0, false, false⟩] ∧
    (parseBulk (canPackMany [⟨0x123, [0x11], 0, false, false⟩]).1).map
      (fun m => (m.addr, m.bus, m.extended, m.data)) = [(0, 0, false, [0x23])] := by
  decide

/-- Claim C1 amended: the single message round trip through the
packing loop of can_send_many and the parsing loop of can_recv holds
exactly for messages with empty payload and the extended flag set
(address at most 0x1FFFFFFF, bus in 0 to 2): the batch packs with
count 1 and parsing the payload returns precisely the original
message.  For a nonzero payload the decoder reads data one byte late,
and for standard identifiers the address decodes as the raw address
shifted right by 18, so the original unrestricted claim fails. -/
theorem c1_roundtrip_amended (addr bus : Nat) (fd : Bool)
    (haddr : addr ≤ 0x1FFFFFFF) (hbus : bus ≤ 2) :
    (canPackMany [⟨addr, [], bus, true, fd⟩]).2 = 1 ∧
    parseBulk (canPackMany [⟨addr, [], bus, true, fd⟩]).1 =
      [⟨addr, [], bus, true, fd⟩] := by
  refine ⟨rfl, ?_⟩
  have hlist : ∀ (B : Nat) (F : Bool),
      (canPackMany [⟨addr, [], B, true, F⟩]).1 =
        ((0 <<< 4) ||| (B <<< 1) ||| (if F then 1 else 0)) % 256 ::
        (addr ||| 1073741824) % 256 :: (addr ||| 1073741824) / 256 % 256 ::
        (addr ||| 1073741824) / 65536 % 256 :: (addr ||| 1073741824) / 16777216 % 256 ::
        [chkFold (((0 <<< 4) ||| (B <<< 1) ||| (if F then 1 else 0)) % 256 ::
          le32 (addr ||| 1073741824)) % 256] := by
    intro B F
    simp [canPackMany, canPackGo, encMsg, encDlc, le32]
  interval_cases bus <;> cases fd <;>
    (rw [hlist]
     simp only [parseBulk, List.length_cons, List.length_nil]
     apply parseBulkGo_one_ext 5 <;> first | exact haddr | decide)

/-- Witness for the amended claim C1 at a concrete message. -/
theorem c1_roundtrip_amended_witness :
    ((0x100 : Nat) ≤ 0x1FFFFFFF ∧ (2 : Nat) ≤ 2) ∧
    ((canPackMany [⟨0x100, [], 2, true, false⟩]).2 = 1 ∧
      parseBulk (canPackMany [⟨0x100, [], 2, true, false⟩]).1 =
        [⟨0x100, [], 2, true, false⟩]) :=
  ⟨by decide, c1_roundtrip_amended 0x100 2 false (by decide) (by decide)⟩

/-- Claim C2: the five message batch packs under the 250 byte cap with
all five messages included (count 5, 52 payload bytes), and parsing
the concatenated payload recovers five messages in the same order (the
bus and extended columns reproduce the input order).  The parsed
message contents differ from the originals (see claim C1); the claim
asserts only count and order. -/
theorem c2_batch_capacity :
    (canPackMany c2Batch).2 = 5 ∧
    (canPackMany c2Batch).1.length = 52 ∧
    (canPackMany c2Batch).1.length ≤ 250 ∧
    (parseBulk (canPackMany c2Batch).1).length = 5 ∧
    (parseBulk (canPackMany c2Batch).1).map (fun m => m.bus) = [0, 1, 2, 0, 1] ∧
    (parseBulk (canPackMany c2Batch).1).map (fun m => m.extended) =
      [false, false, false, false, true] := by decide

theorem encMsg_length_le (m : CANMessage) : (encMsg m).length ≤ 21 := by
  by_cases h8 : m.data.length > 8
  · simp [encMsg, encDlc, le32, h8, List.length_take]
  · simp [encMsg, encDlc, le32, h8, List.length_take]
    omega

theorem canPackGo_length (msgs : List CANMessage) :
    ∀ acc c, acc.length ≤ 251 → (canPackGo acc c msgs).1.length ≤ 251 := by
  induction msgs with
  | nil => intro acc c h; exact h
  | cons m rest ih =>
    intro acc c h
    simp only [canPackGo]
    split
    · exact h
    · rename_i hguard
      apply ih
      have := encMsg_length_le m
      simp only [List.length_append]
      omega

theorem canPackGo_spec (msgs : List CANMessage) :
    ∀ acc c, ∃ n, n ≤ msgs.length ∧
      canPackGo acc c msgs = (acc ++ ((msgs.take n).map encMsg).flatten, c + n) := by
  induction msgs with
  | nil => intro acc c; exact ⟨0, by simp [canPackGo]⟩
  | cons m rest ih =>
    intro acc c
    by_cases hguard : acc.length + 20 > 250
    · refine ⟨0, by omega, ?_⟩
      simp [canPackGo, hguard]
    · obtain ⟨n, hn, heq⟩ := ih (acc ++ encMsg m) (c + 1)
      refine ⟨n + 1, by simp only [List.length_cons]; omega, ?_⟩
      simp only [canPackGo, if_neg hguard]
      rw [heq]
      simp only [List.take_succ_cons, List.map_cons, List.flatten_cons, List.append_assoc]
      have hc : c + 1 + n = c + (n + 1) := by omega
      rw [hc]

set_option maxRecDepth 8192 in
/-- Counterexample to claim C5 as stated: the packed bulk payload of
the twelve message batch is 251 bytes, exceeding the 250 byte frame
capacity, because a message with DLC 15 encodes to 21 bytes while the
budget check only reserves 20. -/
theorem c5_counterexample :
    (canPackMany c5Batch).1.length = 251 ∧ 250 < (canPackMany c5Batch).1.length := by
  decide

/-- Claim C5 amended: for every list of CAN messages the packed bulk
payload built by can_send_many is at most 251 bytes (not 250: a DLC 15
message encodes to 21 bytes against the fixed 20 byte budget, and 251
is attained, see the counterexample), and the returned count n equals
the number of messages actually appended: the payload is exactly the
concatenation of the encodings of the first n messages. -/
theorem c5_capacity_amended (msgs : List CANMessage) :
    (canPackMany msgs).1.length ≤ 251 ∧
    ∃ n, n ≤ msgs.length ∧
      canPackMany msgs = (((msgs.take n).map encMsg).flatten, n) := by
  constructor
  · exact canPackGo_length msgs [] 0 (by simp)
  · obtain ⟨n, hn, heq⟩ := canPackGo_spec msgs [] 0
    exact ⟨n, hn, by simpa using heq⟩

theorem parsedMsg_bus (h a0 a1 a2 a3 : Nat) (rest : List Nat) :
    (parsedMsg h a0 a1 a2 a3 rest).bus ≤ 7 := Nat.and_le_right

theorem parsedMsg_addr (h a0 a1 a2 a3 : Nat) (rest : List Nat) :
    (parsedMsg h a0 a1 a2 a3 rest).addr ≤ 0x1FFFFFFF := by
  simp only [parsedMsg]
  split
  · exact Nat.and_le_right
  · exact Nat.le_trans Nat.and_le_right (by norm_num)

theorem parsedMsg_std (h a0 a1 a2 a3 : Nat) (rest : List Nat)
    (hext : (parsedMsg h a0 a1 a2 a3 rest).extended = false) :
    (parsedMsg h a0 a1 a2 a3 rest).addr ≤ 0x7FF := by
  simp only [parsedMsg] at hext ⊢
  rw [hext]
  simp only [Bool.false_eq_true, if_false]
  exact Nat.and_le_right

theorem msgDataLen_mem (h : Nat) : msgDataLen h ∈ dlcToLen := by
  have hd : msgDlc h ≤ 15 := Nat.and_le_right
  unfold msgDataLen
  set d := msgDlc h with hdd
  interval_cases d <;> decide

theorem parsedMsg_dlen (h a0 a1 a2 a3 : Nat) (rest : List Nat)
    (hle : msgDataLen h ≤ rest.length) :
    (parsedMsg h a0 a1 a2 a3 rest).data.length ∈ dlcToLen := by
  simp only [parsedMsg, List.length_take]
  rw [Nat.min_eq_left hle]
  exact msgDataLen_mem h

theorem parseBulkGo_sound :
    ∀ (fuel : Nat) (data : List Nat) (m : CANMessage), m ∈ parseBulkGo fuel data →
      m.bus ≤ 7 ∧ m.addr ≤ 0x1FFFFFFF ∧ (m.extended = false → m.addr ≤ 0x7FF) ∧
      m.data.length ∈ dlcToLen := by
  intro fuel
  induction fuel with
  | zero => intro data m hm; simp [parseBulkGo] at hm
  | succ k ih =>
    intro data m hm
    rcases data with _ | ⟨h, _ | ⟨a0, _ | ⟨a1, _ | ⟨a2, _ | ⟨a3, _ | ⟨x5, rest⟩⟩⟩⟩⟩⟩
    · simp [parseBulkGo] at hm
    · simp [parseBulkGo] at hm
    · simp [parseBulkGo] at hm
    · simp [parseBulkGo] at hm
    · simp [parseBulkGo] at hm
    · simp [parseBulkGo] at hm
    · simp only [parseBulkGo] at hm
      rw [if_neg (by omega)] at hm
      split at hm
      · simp at hm
      · rename_i hdl
        rcases List.mem_cons.mp hm with rfl | hmem
        · exact ⟨parsedMsg_bus h a0 a1 a2 a3 rest, parsedMsg_addr h a0 a1 a2 a3 rest,
            parsedMsg_std h a0 a1 a2 a3 rest, parsedMsg_dlen h a0 a1 a2 a3 rest
              (Nat.le_of_not_lt hdl)⟩
        · exact ih (rest.drop (msgDataLen h)) m hmem

/-- Claim C9: for every input byte string the parsing loop of can_recv
is a total function (parseBulk is defined for all inputs, so it
terminates without raising or reading out of bounds), and every
message it returns has bus at most 7, addr at most 0x1FFFFFFF (at most
0x7FF when the extended flag is false), and data whose length is an
entry of the DLC table, hence at most 64 bytes. -/
theorem c9_parse_invariants (data : List Nat) (m : CANMessage)
    (hm : m ∈ parseBulk data) :
    m.bus ≤ 7 ∧ m.addr ≤ 0x1FFFFFFF ∧ (m.extended = false → m.addr ≤ 0x7FF) ∧
    m.data.length ∈ dlcToLen ∧ m.data.length ≤ 64 := by
  obtain ⟨h1, h2, h3, h4⟩ := parseBulkGo_sound data.length data m hm
  refine ⟨h1, h2, h3, h4, ?_⟩
  simp only [dlcToLen, List.mem_cons, List.not_mem_nil, or_false] at h4
  rcases h4 with h | h | h | h | h | h | h | h | h | h | h | h | h | h | h | h <;> omega

/-- Witness for claim C9 at a concrete input. -/
theorem c9_parse_invariants_witness :
    ((⟨0, [], 0, false, false⟩ : CANMessage) ∈ parseBulk [0, 0, 0, 0, 0, 0]) ∧
    ((⟨0, [], 0, false, false⟩ : CANMessage).bus ≤ 7 ∧
      (⟨0, [], 0, false, false⟩ : CANMessage).addr ≤ 0x1FFFFFFF ∧
      ((⟨0, [], 0, false, false⟩ : CANMessage).extended = false →
        (⟨0, [], 0, false, false⟩ : CANMessage).addr ≤ 0x7FF) ∧
      (⟨0, [], 0, false, false⟩ : CANMessage).data.length ∈ dlcToLen ∧
      (⟨0, [], 0, false, false⟩ : CANMessage).data.length ≤ 64) :=
  ⟨by decide, c9_parse_invariants [0, 0, 0, 0, 0, 0] ⟨0, [], 0, false, false⟩ (by decide)⟩

theorem Stats.Le.refl (a : Stats) : Stats.Le a a :=
  ⟨Nat.le_refl _, Nat.le_refl _, Nat.le_refl _, Nat.le_refl _, Nat.le_refl _⟩

theorem Stats.Le.trans {a b c : Stats} (h1 : Stats.Le a b) (h2 : Stats.Le b c) :
    Stats.Le a c := by
  obtain ⟨x1, x2, x3, x4, x5⟩ := h1
  obtain ⟨y1, y2, y3, y4, y5⟩ := h2
  exact ⟨Nat.le_trans x1 y1, Nat.le_trans x2 y2, Nat.le_trans x3 y3,
    Nat.le_trans x4 y4, Nat.le_trans x5 y5⟩

theorem sendFrame_mono (st : AdapterState) (f : Frame) (w : WriteOutcome) :
    Stats.Le st.stats (sendFrame st f w).1.stats := by
  cases w <;> by_cases hc : st.connected <;> simp [sendFrame, hc, Stats.Le]

theorem receiveFrame_mono (st : AdapterState) (avail : List Nat) :
    Stats.Le st.stats (receiveFrame st avail).1.stats := by
  unfold receiveFrame
  split
  · dsimp only
    split
    · exact Stats.Le.refl _
    · split
      · exact Stats.Le.refl _
      · split
        · exact Stats.Le.refl _
        · split <;> simp [Stats.Le]
  · exact Stats.Le.refl _

theorem controlTransfer_mono (st : AdapterState) (rt req value index : Nat)
    (data : List Nat) (w : WriteOutcome) (avail : List Nat) :
    Stats.Le st.stats (controlTransfer st rt req value index data w avail).1.stats := by
  unfold controlTransfer
  have h1 := sendFrame_mono st ⟨FRAME_CONTROL, 0, controlPayload rt req value index data, 0⟩ w
  dsimp only
  split
  · have h2 := receiveFrame_mono
      (sendFrame st ⟨FRAME_CONTROL, 0, controlPayload rt req value index data, 0⟩ w).1 avail
    split
    · split <;> exact Stats.Le.trans h1 h2
    · exact Stats.Le.trans h1 h2
  · exact h1

theorem reset_mono (st : AdapterState) (w : WriteOutcome) (avail : List Nat) :
    Stats.Le st.stats (reset st w avail).1.stats :=
  controlTransfer_mono st 0x40 0xC0 0 0 [] w avail

theorem canSendMany_mono (st : AdapterState) (msgs : List CANMessage)
    (w : WriteOutcome) : Stats.Le st.stats (canSendMany st msgs w).1.stats := by
  unfold canSendMany
  dsimp only
  split
  · exact Stats.Le.refl _
  · have h1 := sendFrame_mono st ⟨FRAME_BULK_OUT, 0, (canPackMany msgs).1, 0⟩ w
    split <;> exact h1

theorem canRecv_mono (st : AdapterState) (w : WriteOutcome) (avail : List Nat) :
    Stats.Le st.stats (canRecv st w avail).1.stats := by
  unfold canRecv
  have h1 := sendFrame_mono st ⟨FRAME_BULK_IN, 0, [], 0⟩ w
  dsimp only
  split
  · have h2 := receiveFrame_mono (sendFrame st ⟨FRAME_BULK_IN, 0, [], 0⟩ w).1 avail
    split
    · split <;> exact Stats.Le.trans h1 h2
    · exact Stats.Le.trans h1 h2
  · exact h1

/-- Claim C8: every adapter operation (connect, the control transfer
commands reset, set_safety_mode, set_can_speed_kbps, send_heartbeat,
the bulk operations can_send_many and can_recv, get_stats and close)
leaves each statistics counter at least its value before the call:
counters are only ever incremented, never decreased or reset, within a
session. -/
theorem c8_counters_monotone :
    (∀ (st : AdapterState) (openOk : Bool) (w : WriteOutcome) (avail : List Nat),
      Stats.Le st.stats (connect st openOk w avail).1.stats) ∧
    (∀ (st : AdapterState) (w : WriteOutcome) (avail : List Nat),
      Stats.Le st.stats (reset st w avail).1.stats) ∧
    (∀ (st : AdapterState) (mode param : Nat) (w : WriteOutcome) (avail : List Nat),
      Stats.Le st.stats (setSafetyMode st mode param w avail).1.stats) ∧
    (∀ (st : AdapterState) (bus speed : Nat) (w : WriteOutcome) (avail : List Nat),
      Stats.Le st.stats (setCanSpeedKbps st bus speed w avail).1.stats) ∧
    (∀ (st : AdapterState) (w : WriteOutcome) (avail : List Nat),
      Stats.Le st.stats (sendHeartbeat st w avail).1.stats) ∧
    (∀ (st : AdapterState) (msgs : List CANMessage) (w : WriteOutcome),
      Stats.Le st.stats (canSendMany st msgs w).1.stats) ∧
    (∀ (st : AdapterState) (w : WriteOutcome) (avail : List Nat),
      Stats.Le st.stats (canRecv st w avail).1.stats) ∧
    (∀ st : AdapterState, (getStats st).1 = st.stats) ∧
    (∀ st : AdapterState, Stats.Le st.stats (close st).stats) := by
  refine ⟨?_, reset_mono, ?_, ?_, ?_, canSendMany_mono, canRecv_mono,
    fun _ => rfl, fun st => Stats.Le.refl _⟩
  · intro st openOk w avail
    unfold connect
    dsimp only
    split
    · exact reset_mono { st with connected := true } w avail
    · exact Stats.Le.refl _
  · intro st mode param w avail
    exact controlTransfer_mono st 0x40 0xDC mode param [] w avail
  · intro st bus speed w avail
    exact controlTransfer_mono st 0x40 0xDD bus speed [] w avail
  · intro st w avail
    exact controlTransfer_mono st 0x40 0xF1 0 0 [] w avail

/-- Claim C4 (code bug exhibit): each of reset, set_safety_mode,
set_can_speed_kbps and send_heartbeat returns True even when no
response frame arrives within the timeout (the serial line yields no
bytes), for every state and write outcome, because the source tests
len(response) greater or equal 0, which is always true.  The in code
comment says success requires a response, so the claim describes the
intent and the comparison is a slip. -/
theorem c4_timeout_returns_true (st : AdapterState) (w : WriteOutcome)
    (mode param bus speed : Nat) :
    (reset st w []).2 = true ∧ (setSafetyMode st mode param w []).2 = true ∧
    (setCanSpeedKbps st bus speed w []).2 = true ∧
    (sendHeartbeat st w []).2 = true := by
  refine ⟨?_, ?_, ?_, ?_⟩ <;> simp [reset, setSafetyMode, setCanSpeedKbps, sendHeartbeat]

/-- Counterexample to claim C7 as stated: in the connected start state
with all counters zero, a write that accepts 0 of the 6 packed bytes
makes _send_frame return False, yet the error counter stays 0 (the
claim says it is incremented) and frames_sent becomes 1 (the claim
says frames-sent is incremented only on a full write). -/
theorem c7_counterexample :
    (sendFrame ⟨true, 0, ⟨0, 0, 0, 0, 0⟩⟩ ⟨0, 0, [], 0⟩ (.accepted 0)).2 = false ∧
    (sendFrame ⟨true, 0, ⟨0, 0, 0, 0, 0⟩⟩ ⟨0, 0, [], 0⟩ (.accepted 0)).1.stats.errors = 0 ∧
    (sendFrame ⟨true, 0, ⟨0, 0, 0, 0, 0⟩⟩ ⟨0, 0, [], 0⟩ (.accepted 0)).1.stats.frames_sent = 1 ∧
    (sendFrame ⟨true, 0, ⟨0, 0, 0, 0, 0⟩⟩ ⟨0, 0, [], 0⟩ (.accepted 0)).1.stats.bytes_sent = 0 := by
  decide

/-- Claim C7 amended: on a partial write (n bytes accepted, fewer than
the packed frame length, no exception) _send_frame returns False, but
it still increments the sequence counter, increments frames_sent by
one and bytes_sent by n; the error counter is incremented only when
the write raises.  The frames-sent and bytes-sent counters are
therefore not reserved to full writes, contrary to the original
claim. -/
theorem c7_partial_write_amended (st : AdapterState) (f : Frame) (n : Nat)
    (hc : st.connected = true)
    (hn : n < (Frame.pack { f with sequence := st.sequence_tx }).length) :
    sendFrame st f (.accepted n) =
      ({ st with sequence_tx := (st.sequence_tx + 1) % 256,
                 stats := { st.stats with
                            frames_sent := st.stats.frames_sent + 1,
                            bytes_sent := st.stats.bytes_sent + n } }, false) := by
  simp only [sendFrame, hc, if_true]
  have : (n == (Frame.pack { f with sequence := st.sequence_tx }).length) = false := by
    simp [Nat.ne_of_lt hn]
  rw [this]

/-- Witness for the amended claim C7 at a concrete state and frame. -/
theorem c7_partial_write_amended_witness :
    ((⟨true, 0, ⟨0, 0, 0, 0, 0⟩⟩ : AdapterState).connected = true ∧
      (0 : Nat) < (Frame.pack { (⟨0, 0, [], 0⟩ : Frame) with sequence := 0 }).length) ∧
    sendFrame ⟨true, 0, ⟨0, 0, 0, 0, 0⟩⟩ ⟨0, 0, [], 0⟩ (.accepted 0) =
      (⟨true, 1, ⟨1, 0, 0, 0, 0⟩⟩, false) := by
  refine ⟨by decide, ?_⟩
  have h := c7_partial_write_amended ⟨true, 0, ⟨0, 0, 0, 0, 0⟩⟩ ⟨0, 0, [], 0⟩ 0
    (by decide) (by decide)
  rw [h]
  decide

/-- Claim C10: calling can_send_many with the empty message list
returns 0 and leaves the state untouched: no frame is transmitted, and
the sequence counter, frames_sent, bytes_sent and errors are all
unchanged (the source returns before building the BULK_OUT frame when
the packed payload is empty). -/
theorem c10_empty_send (st : AdapterState) (w : WriteOutcome) :
    canSendMany st [] w = (st, 0) := rfl
